import Mathlib

/-!
Formal model of the extraction pipeline in `main.py` of the
Student-Success-Analysis repository (a Streamlit shipping-bill extractor).

The pipeline's pure core is embedded shallowly:

* `JValue` models Python values produced by `json.loads` (JSON data).
  Numeric literals are kept as their source text in `JValue.num`, since the
  pipeline never computes with numbers; Python object/dict insertion order is
  modelled by the order of the association list in `JValue.obj`, with
  duplicate keys collapsed to the last occurrence at the original position,
  exactly as Python `dict` does while `json.loads` builds an object.
* `json_loads` is a fueled recursive-descent decoder for the JSON grammar
  accepted by Python's `json.loads` (strict mode; the `NaN`/`Infinity`
  extensions are omitted — no input considered here uses them).
* `_extract_json_block` models `re.search(r"(\[.*\]|\{.*\})", text, re.DOTALL)`:
  the leftmost position whose character is an opening bracket that has a
  closer of the same kind later in the text wins, and the greedy `.*`
  extends the match to the last such closer in the remaining text.
* `generate_json_from_gemini` models the bounded retry loop; the external
  model collaborator is a function `Nat → String` giving the response text
  of each attempt, and the run also reports how many model calls were made.
* `normalize_extracted`, the per-candidate schema projection of
  `process_single_pdf_bytes`, and `process_uploaded_pdfs` are translated
  directly.  The two external collaborators (PyPDFLoader text extraction
  and the LLM) appear as explicit inputs: a document carries the outcome of
  its text extraction as an `Except String String`, and the LLM is a
  function from prompt and attempt index to response text.
-/

/-- Python values decodable from JSON text (result type of `json.loads`). -/
inductive JValue where
  | null : JValue
  | bool (b : Bool) : JValue
  | num (lit : String) : JValue
  | str (s : String) : JValue
  | arr (elems : List JValue) : JValue
  | obj (fields : List (String × JValue)) : JValue

/-- JSON whitespace (the characters `json.loads` skips between tokens). -/
def isJsonWs (c : Char) : Bool :=
  c = ' ' || c = '\t' || c = '\n' || c = '\r'

/-- Drop leading JSON whitespace. -/
def skipWs : List Char → List Char
  | [] => []
  | c :: cs => if isJsonWs c then skipWs cs else c :: cs

/-- Value of a hexadecimal digit, by code point: 0-9, then the lowercase
and the uppercase letter ranges. -/
def hexVal (c : Char) : Option Nat :=
  let n := c.toNat
  if 48 ≤ n && n ≤ 57 then some (n - 48)
  else if 97 ≤ n && n ≤ 102 then some (n - 87)
  else if 65 ≤ n && n ≤ 70 then some (n - 55)
  else none

/-- Decimal digit test. -/
def isDigitC (c : Char) : Bool := '0' ≤ c && c ≤ '9'

/-- Body of a JSON string literal, after the opening quote: returns the
decoded string and the input remaining after the closing quote.  Raw
control characters are rejected, as in strict-mode `json.loads`. -/
def parseStringBody (fuel : Nat) (cs : List Char) : Option (String × List Char) :=
  match fuel, cs with
  | 0, _ => none
  | _, [] => none
  | fuel' + 1, c :: cs' =>
    if c = '"' then some ("", cs')
    else if c = '\\' then
      match cs' with
      | [] => none
      | e :: cs2 =>
        let esc : Option (Char × List Char) :=
          if e = '"' then some ('"', cs2)
          else if e = '\\' then some ('\\', cs2)
          else if e = '/' then some ('/', cs2)
          else if e = 'b' then some ('\x08', cs2)
          else if e = 'f' then some ('\x0c', cs2)
          else if e = 'n' then some ('\n', cs2)
          else if e = 'r' then some ('\r', cs2)
          else if e = 't' then some ('\t', cs2)
          else if e = 'u' then
            match cs2 with
            | h1 :: h2 :: h3 :: h4 :: cs3 =>
              match hexVal h1, hexVal h2, hexVal h3, hexVal h4 with
              | some a, some b, some c2, some d =>
                some (Char.ofNat (((a * 16 + b) * 16 + c2) * 16 + d), cs3)
              | _, _, _, _ => none
            | _ => none
          else none
        match esc with
        | some (ch, rest) =>
          match parseStringBody fuel' rest with
          | some (s, r) => some (String.mk (ch :: s.data), r)
          | none => none
        | none => none
    else if c.toNat < 32 then none
    else
      match parseStringBody fuel' cs' with
      | some (s, r) => some (String.mk (c :: s.data), r)
      | none => none

/-- Take a maximal run of decimal digits. -/
def takeDigits : List Char → List Char × List Char
  | [] => ([], [])
  | c :: cs =>
    if isDigitC c then
      let (d, r) := takeDigits cs
      (c :: d, r)
    else ([], c :: cs)

/-- JSON number literal: `-? (0 | [1-9][0-9]*) (. [0-9]+)? ([eE][+-]?[0-9]+)?`.
Returns the literal's characters and the remaining input. -/
def parseNumberLit (cs0 : List Char) : Option (List Char × List Char) :=
  let (sign, cs1) :=
    match cs0 with
    | '-' :: r => (['-'], r)
    | _ => ([], cs0)
  match cs1 with
  | [] => none
  | c :: r =>
    let intPart : Option (List Char × List Char) :=
      if c = '0' then some (['0'], r)
      else if isDigitC c then
        let (d, r2) := takeDigits r
        some (c :: d, r2)
      else none
    match intPart with
    | none => none
    | some (ip, r2) =>
      let (fp, r3) :=
        match r2 with
        | '.' :: d0 :: rf =>
          if isDigitC d0 then
            let (ds, r') := takeDigits rf
            ('.' :: d0 :: ds, r')
          else ([], r2)
        | _ => ([], r2)
      let (ep, r4) :=
        match r3 with
        | e :: re =>
          if e = 'e' || e = 'E' then
            match re with
            | s :: d0 :: rr =>
              if (s = '+' || s = '-') && isDigitC d0 then
                let (ds, r') := takeDigits rr
                (e :: s :: d0 :: ds, r')
              else if isDigitC s then
                let (ds, r') := takeDigits (d0 :: rr)
                (e :: s :: ds, r')
              else ([], r3)
            | [s] =>
              if isDigitC s then ([e, s], [])
              else ([], r3)
            | [] => ([], r3)
          else ([], r3)
        | [] => ([], r3)
      some (sign ++ ip ++ fp ++ ep, r4)

/-- Insert a key/value pair the way Python `dict` assignment does while
`json.loads` builds an object: an existing key keeps its position and gets
the new value; a new key is appended. -/
def insertKV : List (String × JValue) → String → JValue → List (String × JValue)
  | [], k, v => [(k, v)]
  | (k0, v0) :: rest, k, v =>
    if k0 = k then (k0, v) :: rest
    else (k0, v0) :: insertKV rest k v

mutual

/-- One JSON value, with leading whitespace allowed; returns the value and
the remaining input.  `fuel` bounds the recursion depth. -/
def parseVal (fuel : Nat) (cs : List Char) : Option (JValue × List Char) :=
  match fuel with
  | 0 => none
  | fuel' + 1 =>
    match skipWs cs with
    | [] => none
    | c :: rest =>
      if c = 'n' then
        match rest with
        | 'u' :: 'l' :: 'l' :: r => some (JValue.null, r)
        | _ => none
      else if c = 't' then
        match rest with
        | 'r' :: 'u' :: 'e' :: r => some (JValue.bool true, r)
        | _ => none
      else if c = 'f' then
        match rest with
        | 'a' :: 'l' :: 's' :: 'e' :: r => some (JValue.bool false, r)
        | _ => none
      else if c = '"' then
        match parseStringBody (rest.length + 1) rest with
        | some (s, r) => some (JValue.str s, r)
        | none => none
      else if c = '[' then
        match skipWs rest with
        | ']' :: r => some (JValue.arr [], r)
        | _ =>
          match parseArrItems fuel' rest with
          | some (xs, r) => some (JValue.arr xs, r)
          | none => none
      else if c = '\x7b' then
        match skipWs rest with
        | '\x7d' :: r => some (JValue.obj [], r)
        | _ =>
          match parseObjItems fuel' rest [] with
          | some (kvs, r) => some (JValue.obj kvs, r)
          | none => none
      else if c = '-' || isDigitC c then
        match parseNumberLit (c :: rest) with
        | some (lit, r) => some (JValue.num (String.mk lit), r)
        | none => none
      else none

/-- Comma-separated items of a non-empty JSON array, up to the closing `]`. -/
def parseArrItems (fuel : Nat) (cs : List Char) : Option (List JValue × List Char) :=
  match fuel with
  | 0 => none
  | fuel' + 1 =>
    match parseVal fuel' cs with
    | none => none
    | some (v, r) =>
      match skipWs r with
      | ',' :: r2 =>
        match parseArrItems fuel' r2 with
        | some (xs, r3) => some (v :: xs, r3)
        | none => none
      | ']' :: r2 => some ([v], r2)
      | _ => none

/-- Members of a non-empty JSON object, up to the closing brace, built with
Python dict assignment semantics. -/
def parseObjItems (fuel : Nat) (cs : List Char) (acc : List (String × JValue)) :
    Option (List (String × JValue) × List Char) :=
  match fuel with
  | 0 => none
  | fuel' + 1 =>
    match skipWs cs with
    | '"' :: r =>
      match parseStringBody (r.length + 1) r with
      | none => none
      | some (k, r2) =>
        match skipWs r2 with
        | ':' :: r3 =>
          match parseVal fuel' r3 with
          | none => none
          | some (v, r4) =>
            let acc2 := insertKV acc k v
            match skipWs r4 with
            | ',' :: r5 => parseObjItems fuel' r5 acc2
            | '\x7d' :: r5 => some (acc2, r5)
            | _ => none
        | _ => none
    | _ => none

end

/-- Model of Python `json.loads`: decode the whole text as one JSON value,
allowing surrounding whitespace; `none` models the `JSONDecodeError` the
source catches.  The fuel is ample for any input: nesting depth never
exceeds the text length. -/
def json_loads (s : String) : Option JValue :=
  match parseVal (s.data.length + 1) s.data with
  | some (v, r) => if (skipWs r).isEmpty then some v else none
  | none => none

/-- The characters of `cs` up to and including the last occurrence of `c`,
or `none` when `c` does not occur (models the greedy tail of `.*` followed
by a closing bracket in the source's regex). -/
def upToLast (c : Char) : List Char → Option (List Char)
  | [] => none
  | x :: xs =>
    match upToLast c xs with
    | some t => some (x :: t)
    | none => if x = c then some [x] else none

/-- Character-list core of `_extract_json_block`: scan left to right; at the
first position holding `[` with a later `]` (or `\x7b` with a later `\x7d`)
the greedy match runs to the last such closer; an opener with no later
closer of its kind cannot match and the scan moves on, exactly as
`re.search` does with the source's pattern. -/
def extractAux : List Char → Option (List Char)
  | [] => none
  | x :: rest =>
    if x = '[' then
      match upToLast ']' rest with
      | some body => some (x :: body)
      | none => extractAux rest
    else if x = '\x7b' then
      match upToLast '\x7d' rest with
      | some body => some (x :: body)
      | none => extractAux rest
    else extractAux rest

/-- Model of `_extract_json_block` in `main.py`:
`re.search(r"(\[.*\]|\{.*\})", text, re.DOTALL)`, returning the matched
substring when any exists. -/
def _extract_json_block (text : String) : Option String :=
  (extractAux text.data).map String.mk

/-- Modelled from the spec: the words of §4.3 / claim C5 — "the substring
spanning from the first `[` or `{` to the last matching `]` or `}` in the
text".  The first opening bracket of either kind is located; if its own
kind of closer occurs later, the span runs to the last such closer,
otherwise there is no substring to decode.  Used only to compare the
claim's description with `_extract_json_block`. -/
def claimedBlockAux : List Char → Option (List Char)
  | [] => none
  | x :: rest =>
    if x = '[' then (upToLast ']' rest).map (fun b => x :: b)
    else if x = '\x7b' then (upToLast '\x7d' rest).map (fun b => x :: b)
    else claimedBlockAux rest

/-- Modelled from the spec: string-level wrapper of `claimedBlockAux`. -/
def claimed_block (text : String) : Option String :=
  (claimedBlockAux text.data).map String.mk

/-- One iteration body of the retry loop in `generate_json_from_gemini`:
`json.loads` on the whole response text, else `json.loads` on the extracted
bracket block when one exists; `none` models falling through to the next
attempt. -/
def attempt_parse (text : String) : Option JValue :=
  match json_loads text with
  | some v => some v
  | none =>
    match _extract_json_block text with
    | some block => json_loads block
    | none => none

/-- The retry loop of `generate_json_from_gemini`, with the model
collaborator as `respond : Nat → String` (response text of each attempt).
Arguments: attempts already made, attempts remaining.  Returns the Python
return value together with the total number of model calls made. -/
def geminiAux (respond : Nat → String) : Nat → Nat → JValue × Nat
  | attempt, 0 => (JValue.arr [], attempt)
  | attempt, remaining + 1 =>
    match attempt_parse (respond attempt) with
    | some v => (v, attempt + 1)
    | none => geminiAux respond (attempt + 1) remaining

/-- `generate_json_from_gemini(prompt, retries)` and its model-call count,
starting from zero attempts made. -/
def geminiRun (respond : Nat → String) (retries : Nat) : JValue × Nat :=
  geminiAux respond 0 retries

/-- The value returned by `generate_json_from_gemini` in `main.py`. -/
def generate_json_from_gemini (respond : Nat → String) (retries : Nat) : JValue :=
  (geminiRun respond retries).1

/-- The number of `llm.invoke` calls made by `generate_json_from_gemini`. -/
def gemini_call_count (respond : Nat → String) (retries : Nat) : Nat :=
  (geminiRun respond retries).2

/-- `isinstance(v, dict)`. -/
def isDict : JValue → Bool
  | JValue.obj _ => true
  | _ => false

/-- `isinstance(v, list)`. -/
def isList : JValue → Bool
  | JValue.arr _ => true
  | _ => false

/-- `isinstance(v, list) and all(isinstance(i, dict) for i in v)`. -/
def isListOfDicts : JValue → Bool
  | JValue.arr xs => xs.all isDict
  | _ => false

/-- The loop inside `normalize_extracted` over `extracted.values()` in
insertion order: the first value that is a list whose elements are all
dicts. -/
def findNestedList : List (String × JValue) → Option (List JValue)
  | [] => none
  | kv :: rest =>
    match kv.2 with
    | JValue.arr xs => if xs.all isDict then some xs else findNestedList rest
    | _ => findNestedList rest

/-- Model of `normalize_extracted` in `main.py`. -/
def normalize_extracted : JValue → List JValue
  | JValue.arr xs => xs
  | JValue.obj kvs =>
    match findNestedList kvs with
    | some xs => xs
    | none => [JValue.obj kvs]
  | _ => []

/-- The `COLUMNS` list of `main.py`, transcribed verbatim. -/
def COLUMNS : List String := [
  "Sr. No.", "SB NO.", "S/B Date", "LEO Date", "CUSTOMER NAME", "FINAL INVOICE NO",
  "SB. SOLAR / OTHER GOODS", "PORT CODE", "INCOTERMS", "COUNTRY", "H.S. Itch code",
  "PRODUCT GROUP", "Qty", "Unit", "FOB Value declared by us (S/B)in FC",
  "Currency of export", "Custom Exchange Rate in FC", "LEO Date Exchange Rate in in FC",
  "FOB Value as per SB in INR", "FOB Value as per LEO ex rate in INR",
  "ACTUAL FRT + INSURANC  IN FC", "Total Invoice Value in FC as per SB",
  "PAYMENT RECEIPT", "PAYMENT OUTSTANDING", "Total Invoice Value in INR as per SB",
  "SCHEME (ADV/DFIA/DRAWBACK)", "EPCG LICECE", "Drawback cap per unit in Rs. (₹)",
  "DBK %", "DRAWBACK Receivable on fob", "DRAWBCK Scrol NO", "Scroll Date",
  "DBK Realized BEFORE 31.03.2026", "SHORT REALIZATION", "BAL DBK",
  "REASONS OF BAL DBK", "REMARKS FOR ACTION TAKEN FOR RECOVERY AS ON DTD. XX.XX.2020",
  "RoDTEP%", "RoDTEP RECEIVABLE", "RoDTEP Y/N", "Transmitted Y/N",
  "RoDTEP REALIZE BEFORE 31.03.2026", "SCRIP NUMBER", "SCRIP ISSUE DATE",
  "SORT REALIZAION", "BAL RoDTEP", "REASONS OF BAL RoDTEP",
  "DBK Not Realized BUT PAYMENT OUTSTANDING > 9 MONTH",
  "Reason for BAL/SHORTFALL",
  "REMARKS FOR ACTION TAKEN FOR RECOVERY AS ON DTD.",
  "BOOKING IN SAP"]

/-- Python `repr` of one of the column-name strings.  None of them contains
a quote, a backslash, or a non-printable character, so `repr` is exactly
the string wrapped in single quotes (`\x27` is the apostrophe). -/
def pyRepr (s : String) : String := "\x27" ++ s ++ "\x27"

/-- Python `str` of a list of such strings, as interpolated by the f-string
`f"...{COLUMNS}..."` in `main.py`. -/
def pyStrList (l : List String) : String :=
  "[" ++ String.intercalate ", " (l.map pyRepr) ++ "]"

/-- The part of the extraction prompt before the document text (the
f-string of `process_single_pdf_bytes` with `{COLUMNS}` interpolated),
up to and including the opening triple quote. -/
def promptPre : String :=
  "\nYou are an expert in export compliance. Extract material-wise line items from the given Shipping Bill.\nReturn a JSON array where each element is a JSON object representing one material line item.\n\nEach object MUST contain the following keys (use empty string \"\" where value is missing):\n"
  ++ pyStrList COLUMNS
  ++ "\n\nReturn strictly valid JSON (an array). Do not include extra commentary or text outside the JSON array.\n\nDocument:\n\"\"\""

/-- The part of the extraction prompt after the document text. -/
def promptPost : String := "\"\"\"\n"

/-- The `extraction_prompt` f-string of `process_single_pdf_bytes` as a
function of the extracted document text. -/
def extraction_prompt (full_text : String) : String :=
  promptPre ++ full_text ++ promptPost

/-- A Record: one cleaned row, an ordered mapping from column name to the
value taken from the candidate dict. -/
abbrev Record := List (String × JValue)

/-- Python `r.get(col, default)` on a decoded dict. -/
def pyGet (kvs : List (String × JValue)) (k : String) (d : JValue) : JValue :=
  match kvs.lookup k with
  | some v => v
  | none => d

/-- The per-candidate projection `{col: r.get(col, "") for col in COLUMNS}`
of `process_single_pdf_bytes`. -/
def cleanRowOf (kvs : List (String × JValue)) : Record :=
  COLUMNS.map (fun col => (col, pyGet kvs col (JValue.str "")))

/-- The loop body over normalized rows: non-dicts are skipped (`continue`),
dicts are projected onto the schema. -/
def cleanRow : JValue → Option Record
  | JValue.obj kvs => some (cleanRowOf kvs)
  | _ => none

/-- The pure tail of `process_single_pdf_bytes`, from the extracted
document text onward (the PDF-to-text step is the external collaborator):
build the prompt, run the bounded-retry model invocation, normalize the
shape, and project every dict candidate onto the schema. -/
def process_single_pdf (llm : String → Nat → String) (full_text : String) :
    List Record :=
  let prompt := extraction_prompt full_text
  let extracted_raw := generate_json_from_gemini (llm prompt) 3
  let rows := normalize_extracted extracted_raw
  rows.filterMap cleanRow

/-- The error message appended by `process_uploaded_pdfs` when a document
yields no rows. -/
def EMPTY_MSG : String := "No material items extracted (empty response)."

/-- An uploaded file: its name and the outcome of `f.read()` followed by
PyPDFLoader text extraction — `Except.error e` models an exception with
`str(e) = e` raised inside the per-file `try`, `Except.ok text` the
successfully extracted document text. -/
structure UploadedFile where
  name : String
  content : Except String String

/-- Model of `process_uploaded_pdfs` in `main.py`: the per-file loop with
its `try/except`, accumulating all rows and all `(name, message)` error
pairs in file order. -/
def process_uploaded_pdfs (llm : String → Nat → String) :
    List UploadedFile → List Record × List (String × String)
  | [] => ([], [])
  | f :: rest =>
    let tail := process_uploaded_pdfs llm rest
    match f.content with
    | Except.error e => (tail.1, (f.name, e) :: tail.2)
    | Except.ok text =>
      let rows := process_single_pdf llm text
      if rows.isEmpty then (tail.1, (f.name, EMPTY_MSG) :: tail.2)
      else (rows ++ tail.1, tail.2)

/-- Rows a single file contributes to the batch. -/
def fileRows (llm : String → Nat → String) (f : UploadedFile) : List Record :=
  match f.content with
  | Except.error _ => []
  | Except.ok text => process_single_pdf llm text

/-- The error pair a single file contributes, if any. -/
def fileErr (llm : String → Nat → String) (f : UploadedFile) :
    Option (String × String) :=
  match f.content with
  | Except.error e => some (f.name, e)
  | Except.ok text =>
    if (process_single_pdf llm text).isEmpty then some (f.name, EMPTY_MSG)
    else none

/-- `a` occurs as a contiguous span inside `b`. -/
def SubSpan (a b : List Char) : Prop := ∃ s t, s ++ a ++ t = b

/-- Executable prefix test on character lists. -/
def isPrefixB : List Char → List Char → Bool
  | [], _ => true
  | _ :: _, [] => false
  | a :: as, b :: bs => a == b && isPrefixB as bs

/-- Executable contiguous-span test on character lists. -/
def subSpanB (a : List Char) : List Char → Bool
  | [] => isPrefixB a []
  | b :: bs => isPrefixB a (b :: bs) || subSpanB a bs

/-- A model collaborator that answers every attempt with the same text. -/
def constResp (s : String) : Nat → String := fun _ => s

/-- A model collaborator whose first response decodes to the empty array and
whose later responses decode to a non-empty array. -/
def c3Resp : Nat → String
  | 0 => "[]"
  | _ => "[\"a\"]"

/-- The response text of the worked example in claim C5. -/
def c5Text : String := "Sure! Here is the data: [\x7b\"SB NO.\":\"1\"\x7d] Hope that helps!"

/-- The bracket block inside `c5Text`. -/
def c5Block : String := "[\x7b\"SB NO.\":\"1\"\x7d]"

/-- The decoded value of `c5Block`. -/
def c5Val : JValue := JValue.arr [JValue.obj [("SB NO.", JValue.str "1")]]

/-- A response whose first opening bracket (a brace) is never closed but
which still contains a complete bracketed array later. -/
def c5Cex : String := "\x7b a [\"1\"] b"

/-- An LLM stub returning one well-formed single-record array. -/
def demoLLM : String → Nat → String := fun _ _ => "[\x7b\"SB NO.\": \"123\"\x7d]"

/-- An LLM stub returning unparsable prose on every attempt. -/
def noiseLLM : String → Nat → String := fun _ _ => "no json here"

/-- The record `demoLLM` leads to: "SB NO." set, every other column empty. -/
def demoRec : Record := cleanRowOf [("SB NO.", JValue.str "123")]

/-- Batch scenario of claim C2: documents 1 and 3 extract fine, document 2
raises during text extraction. -/
def demoFile1 : UploadedFile := ⟨"doc1.pdf", Except.ok "t1"⟩

/-- The failing document of the C2 scenario. -/
def demoFile2 : UploadedFile := ⟨"doc2.pdf", Except.error "PDF read failure"⟩

/-- The third document of the C2 scenario. -/
def demoFile3 : UploadedFile := ⟨"doc3.pdf", Except.ok "t3"⟩

/-- A document whose text extracts fine but yields no records. -/
def emptyFile : UploadedFile := ⟨"empty.pdf", Except.ok "no data"⟩

/-! ## Helper lemmas -/

/-- Looking a present key up in the schema projection finds the projected
value. -/
theorem lookup_map_mem (f : String → JValue) :
    ∀ (l : List String) (k : String), k ∈ l →
      (l.map (fun c => (c, f c))).lookup k = some (f k) := by
  intro l
  induction l with
  | nil => intro k hk; cases hk
  | cons c cs ih =>
    intro k hk
    by_cases h : k = c
    · subst h
      simp [List.lookup]
    · have hk' : k ∈ cs := by
        rcases List.mem_cons.mp hk with h1 | h1
        · exact absurd h1 h
        · exact h1
      have hbc : (k == c) = false := beq_false_of_ne h
      simp [List.lookup, hbc, ih _ hk']

/-- Looking an absent key up in the schema projection finds nothing. -/
theorem lookup_map_not_mem (f : String → JValue) :
    ∀ (l : List String) (k : String), k ∉ l →
      (l.map (fun c => (c, f c))).lookup k = none := by
  intro l
  induction l with
  | nil => intro k _; rfl
  | cons c cs ih =>
    intro k hk
    have h1 : k ≠ c := fun h => hk (h ▸ List.mem_cons_self c cs)
    have h2 : k ∉ cs := fun h => hk (List.mem_cons_of_mem c h)
    have hbc : (k == c) = false := beq_false_of_ne h1
    simp [List.lookup, hbc, ih _ h2]

/-- The keys of the schema projection are the schema, in order. -/
theorem map_fst_map_pair (f : String → JValue) :
    ∀ l : List String, (l.map (fun c => (c, f c))).map Prod.fst = l := by
  intro l
  induction l with
  | nil => rfl
  | cons c cs ih => simp [ih]

/-! ## C1: shape of an emitted record -/

/-- C1 counterexample: the claim calls the schema "the 48 entries of
COLUMNS", but `COLUMNS` in `main.py` has 51 entries. -/
theorem C1_counterexample : ¬ (COLUMNS.length = 48) := by decide

/-- C1 (amended): `COLUMNS` has 51 pairwise-distinct entries, and every
record emitted by the per-candidate projection of
`process_single_pdf_bytes` has exactly those names as its keys, in schema
order: a schema field absent from the candidate is bound to the empty
string, and a key of the candidate outside the schema does not occur in
the record. -/
theorem C1_theorem (kvs : List (String × JValue)) (col k : String) :
    COLUMNS.length = 51 ∧ COLUMNS.Nodup ∧
    (cleanRowOf kvs).map Prod.fst = COLUMNS ∧
    (col ∈ COLUMNS → kvs.lookup col = none →
      (cleanRowOf kvs).lookup col = some (JValue.str "")) ∧
    (k ∉ COLUMNS → (cleanRowOf kvs).lookup k = none) := by
  refine ⟨by decide, by decide, ?_, ?_, ?_⟩
  · exact map_fst_map_pair _ COLUMNS
  · intro hmem habs
    rw [cleanRowOf, lookup_map_mem _ _ _ hmem]
    simp [pyGet, habs]
  · intro hk
    exact lookup_map_not_mem _ _ _ hk

/-- C1 witness: the projection of the candidate mapping only "SB NO." and
an extraneous key binds every other schema field to the empty string and
drops the extraneous key. -/
theorem C1_witness :
    (cleanRowOf [("SB NO.", JValue.str "123"), ("extra", JValue.str "x")]).lookup
        "CUSTOMER NAME" = some (JValue.str "") ∧
    (cleanRowOf [("SB NO.", JValue.str "123"), ("extra", JValue.str "x")]).lookup
        "extra" = none :=
  ⟨(C1_theorem [("SB NO.", JValue.str "123"), ("extra", JValue.str "x")]
      "CUSTOMER NAME" "extra").2.2.2.1 (by decide) rfl,
   (C1_theorem [("SB NO.", JValue.str "123"), ("extra", JValue.str "x")]
      "CUSTOMER NAME" "extra").2.2.2.2 (by decide)⟩

/-! ## C6: record values are copied, not coerced -/

/-- C6 counterexample: the claim says a present value is coerced to string
and a record value is never null, but the projection
`{col: r.get(col, "") for col in COLUMNS}` copies the candidate's value
unchanged: a null stays null and a number stays a number. -/
theorem C6_counterexample :
    (cleanRowOf [("SB NO.", JValue.null)]).lookup "SB NO." = some JValue.null ∧
    JValue.null ≠ JValue.str "" ∧
    (cleanRowOf [("Qty", JValue.num "5")]).lookup "Qty" = some (JValue.num "5") ∧
    JValue.num "5" ≠ JValue.str "5" :=
  ⟨rfl, fun h => JValue.noConfusion h, rfl, fun h => JValue.noConfusion h⟩

/-- C6 (amended): for a schema field present in the candidate the emitted
record holds the candidate's decoded value unchanged — with no coercion to
string, so it may be null or a number — and for an absent schema field it
holds the empty string. -/
theorem C6_theorem (kvs : List (String × JValue)) (col : String) (v : JValue) :
    (col ∈ COLUMNS → kvs.lookup col = some v →
      (cleanRowOf kvs).lookup col = some v) ∧
    (col ∈ COLUMNS → kvs.lookup col = none →
      (cleanRowOf kvs).lookup col = some (JValue.str "")) := by
  constructor
  · intro hmem hv
    rw [cleanRowOf, lookup_map_mem _ _ _ hmem]
    simp [pyGet, hv]
  · intro hmem habs
    rw [cleanRowOf, lookup_map_mem _ _ _ hmem]
    simp [pyGet, habs]

/-- C6 witness: a candidate mapping "SB NO." to the string "123" yields a
record with that exact value. -/
theorem C6_witness :
    (cleanRowOf [("SB NO.", JValue.str "123")]).lookup "SB NO." =
      some (JValue.str "123") :=
  (C6_theorem [("SB NO.", JValue.str "123")] "SB NO." (JValue.str "123")).1
    (by decide) rfl

/-! ## C4 and C9: the shape normalizer -/

/-- A value that is not a list is also not a list of dicts. -/
theorem isListOfDicts_false_of_not_list (v : JValue) (h : isList v = false) :
    isListOfDicts v = false := by
  cases v with
  | arr xs => exact absurd h (by simp [isList])
  | null => rfl
  | bool b => rfl
  | num l => rfl
  | str s => rfl
  | obj kvs => rfl

/-- The value search of `normalize_extracted` skips every entry whose value
is not a list of dicts. -/
theorem findNestedList_append_skip (pre rest : List (String × JValue))
    (h : ∀ p ∈ pre, isListOfDicts p.2 = false) :
    findNestedList (pre ++ rest) = findNestedList rest := by
  induction pre with
  | nil => rfl
  | cons p ps ih =>
    have hp := h p (List.mem_cons_self p ps)
    have hps : ∀ q ∈ ps, isListOfDicts q.2 = false :=
      fun q hq => h q (List.mem_cons_of_mem p hq)
    cases hv : p.2 with
    | arr xs =>
      have : xs.all isDict = false := by
        have := hp
        rw [hv] at this
        simpa [isListOfDicts] using this
      simp [findNestedList, hv, this, ih hps]
    | null => simp [findNestedList, hv, ih hps]
    | bool b => simp [findNestedList, hv, ih hps]
    | num l => simp [findNestedList, hv, ih hps]
    | str s => simp [findNestedList, hv, ih hps]
    | obj kvs2 => simp [findNestedList, hv, ih hps]

/-- When no value is a list of dicts the search fails. -/
theorem findNestedList_none (kvs : List (String × JValue))
    (h : ∀ p ∈ kvs, isListOfDicts p.2 = false) :
    findNestedList kvs = none := by
  have := findNestedList_append_skip kvs [] h
  simpa using this

/-- C4 counterexample: the claim says a sequence of non-mappings yields the
empty sequence, but `normalize_extracted` returns every list argument
unchanged — `isinstance(extracted, list)` does not inspect the elements. -/
theorem C4_counterexample :
    normalize_extracted (JValue.arr [JValue.num "1", JValue.num "2"]) =
      [JValue.num "1", JValue.num "2"] ∧
    (JValue.num "1" :: [JValue.num "2"]) ≠ ([] : List JValue) :=
  ⟨rfl, fun h => List.noConfusion h⟩

/-- C4 (amended): `normalize_extracted` returns any sequence unchanged
(whether or not its elements are mappings); a single mapping is searched in
value insertion order for the first value that is a sequence composed
entirely of mappings, which is returned if found, and otherwise the mapping
is wrapped as a one-element sequence; a scalar (null, boolean, number or
string) yields the empty sequence. -/
theorem C4_theorem :
    (∀ xs : List JValue, normalize_extracted (JValue.arr xs) = xs) ∧
    (∀ (pre post : List (String × JValue)) (k : String) (xs : List JValue),
      (∀ p ∈ pre, isListOfDicts p.2 = false) → xs.all isDict = true →
      normalize_extracted (JValue.obj (pre ++ (k, JValue.arr xs) :: post)) = xs) ∧
    (∀ kvs : List (String × JValue),
      (∀ p ∈ kvs, isListOfDicts p.2 = false) →
      normalize_extracted (JValue.obj kvs) = [JValue.obj kvs]) ∧
    normalize_extracted JValue.null = [] ∧
    (∀ b, normalize_extracted (JValue.bool b) = []) ∧
    (∀ l, normalize_extracted (JValue.num l) = []) ∧
    (∀ s, normalize_extracted (JValue.str s) = []) := by
  refine ⟨fun xs => rfl, ?_, ?_, rfl, fun b => rfl, fun l => rfl, fun s => rfl⟩
  · intro pre post k xs hpre hall
    have hfind : findNestedList (pre ++ (k, JValue.arr xs) :: post) = some xs := by
      rw [findNestedList_append_skip pre _ hpre]
      simp [findNestedList, hall]
    simp [normalize_extracted, hfind]
  · intro kvs h
    simp [normalize_extracted, findNestedList_none kvs h]

/-- C4 witness: the spec's own example — a wrapper object whose "rows"
value is the nested record sequence. -/
theorem C4_witness :
    normalize_extracted (JValue.obj [("x", JValue.num "1"),
        ("rows", JValue.arr [JValue.obj [("a", JValue.num "1")],
                             JValue.obj [("a", JValue.num "2")]])]) =
      [JValue.obj [("a", JValue.num "1")], JValue.obj [("a", JValue.num "2")]] :=
  C4_theorem.2.1 [("x", JValue.num "1")] [] "rows"
    [JValue.obj [("a", JValue.num "1")], JValue.obj [("a", JValue.num "2")]]
    (by
      intro p hp
      rw [List.mem_singleton] at hp
      subst hp
      rfl)
    rfl

/-- C9 (confirmed): when the first sequence-valued entry of a mapping in
insertion order is the empty sequence, `normalize_extracted` returns the
empty sequence — the "all elements are mappings" test holds vacuously — and
neither wraps the mapping nor continues to later values. -/
theorem C9_theorem (pre post : List (String × JValue)) (k : String)
    (h : ∀ p ∈ pre, isList p.2 = false) :
    normalize_extracted (JValue.obj (pre ++ (k, JValue.arr []) :: post)) = [] := by
  have hpre : ∀ p ∈ pre, isListOfDicts p.2 = false :=
    fun p hp => isListOfDicts_false_of_not_list p.2 (h p hp)
  have hfind : findNestedList (pre ++ (k, JValue.arr []) :: post) =
      some ([] : List JValue) := by
    rw [findNestedList_append_skip pre _ hpre]
    simp [findNestedList]
  simp [normalize_extracted, hfind]

/-- C9 witness: the mapping with a non-sequence value followed by an empty
"items" sequence and a later non-empty record sequence normalizes to the
empty sequence. -/
theorem C9_witness :
    normalize_extracted (JValue.obj [("x", JValue.num "1"),
        ("items", JValue.arr []),
        ("rows", JValue.arr [JValue.obj []])]) = [] :=
  C9_theorem [("x", JValue.num "1")] [("rows", JValue.arr [JValue.obj []])] "items"
    (by
      intro p hp
      rw [List.mem_singleton] at hp
      subst hp
      rfl)

/-! ## C3 and C8: the bounded retry loop -/

/-- When every remaining attempt fails to parse, the loop exhausts its
attempts and returns the empty array, one model call per attempt. -/
theorem geminiAux_all_fail (r : Nat → String) :
    ∀ (n start : Nat), (∀ k, k < n → attempt_parse (r (start + k)) = none) →
      geminiAux r start n = (JValue.arr [], start + n) := by
  intro n
  induction n with
  | zero => intro start _; simp [geminiAux]
  | succ m ih =>
    intro start h
    have h0 : attempt_parse (r start) = none := by
      simpa using h 0 (Nat.succ_pos m)
    have hrest : ∀ k, k < m → attempt_parse (r (start + 1 + k)) = none := by
      intro k hk
      have := h (k + 1) (by omega)
      rw [show start + 1 + k = start + (k + 1) from by omega]
      exact this
    simp only [geminiAux, h0]
    rw [ih (start + 1) hrest]
    rw [show start + 1 + m = start + (m + 1) from by omega]

/-- When attempt `j` is the first to parse, the loop returns its value
after `j + 1` model calls. -/
theorem geminiAux_found (r : Nat → String) (v : JValue) :
    ∀ (j n start : Nat), j < n →
      (∀ k, k < j → attempt_parse (r (start + k)) = none) →
      attempt_parse (r (start + j)) = some v →
      geminiAux r start n = (v, start + j + 1) := by
  intro j
  induction j with
  | zero =>
    intro n start hn _ hsome
    cases n with
    | zero => omega
    | succ m =>
      rw [show start + 0 = start from rfl] at hsome
      simp [geminiAux, hsome]
  | succ j' ih =>
    intro n start hn hfail hsome
    cases n with
    | zero => omega
    | succ m =>
      have h0 : attempt_parse (r start) = none := by
        simpa using hfail 0 (Nat.succ_pos j')
      have hfail' : ∀ k, k < j' → attempt_parse (r (start + 1 + k)) = none := by
        intro k hk
        have := hfail (k + 1) (by omega)
        rw [show start + 1 + k = start + (k + 1) from by omega]
        exact this
      have hsome' : attempt_parse (r (start + 1 + j')) = some v := by
        rw [show start + 1 + j' = start + (j' + 1) from by omega]
        exact hsome
      simp only [geminiAux, h0]
      rw [ih m (start + 1) (by omega) hfail' hsome']
      rw [show start + 1 + j' + 1 = start + (j' + 1) + 1 from by omega]

/-- A successful direct decode of the whole response text is the attempt's
result. -/
theorem attempt_parse_of_loads (text : String) (v : JValue)
    (h : json_loads text = some v) : attempt_parse text = some v := by
  simp [attempt_parse, h]

/-- C3 counterexample: the claim says the loop returns on the first attempt
whose response decodes to a NON-empty value, but the code returns on any
successful decode: with a first response of "[]" and a second that decodes
to a non-empty array, the loop stops after one call with the empty array,
not with the second attempt's non-empty value. -/
theorem C3_counterexample :
    attempt_parse (c3Resp 0) = some (JValue.arr []) ∧
    attempt_parse (c3Resp 1) = some (JValue.arr [JValue.str "a"]) ∧
    JValue.arr [JValue.str "a"] ≠ JValue.arr [] ∧
    generate_json_from_gemini c3Resp 3 = JValue.arr [] ∧
    gemini_call_count c3Resp 3 = 1 :=
  ⟨rfl, rfl, by simp, rfl, rfl⟩

/-- C3 (amended): the loop makes one model call per attempt and returns
immediately on the first attempt whose response text decodes successfully —
whether or not the decoded value is empty; if every attempt up to the cap
returns unparsable text, it returns the empty sequence without raising, and
exactly `retries` model calls were made. -/
theorem C3_theorem (r : Nat → String) (retries j : Nat) (v : JValue) :
    ((∀ k, k < retries → attempt_parse (r k) = none) →
      generate_json_from_gemini r retries = JValue.arr [] ∧
      gemini_call_count r retries = retries) ∧
    (j < retries → (∀ k, k < j → attempt_parse (r k) = none) →
      attempt_parse (r j) = some v →
      generate_json_from_gemini r retries = v ∧
      gemini_call_count r retries = j + 1) := by
  constructor
  · intro h
    have := geminiAux_all_fail r retries 0 (by simpa using h)
    constructor
    · simp [generate_json_from_gemini, geminiRun, this]
    · simp [gemini_call_count, geminiRun, this]
  · intro hj hfail hsome
    have := geminiAux_found r v j retries 0 hj (by simpa using hfail)
      (by simpa using hsome)
    constructor
    · simp [generate_json_from_gemini, geminiRun, this]
    · simp [gemini_call_count, geminiRun, this]

/-- C3 witness: three unparsable responses exhaust the cap of 3 with
exactly 3 model calls and an empty result. -/
theorem C3_witness :
    generate_json_from_gemini (constResp "x") 3 = JValue.arr [] ∧
    gemini_call_count (constResp "x") 3 = 3 :=
  (C3_theorem (constResp "x") 3 0 JValue.null).1 (fun _ _ => rfl)

/-- C8 (confirmed): the loop returns immediately on any response whose text
decodes successfully, even when the decoded value is empty or not a record
sequence — "[]", the empty object, "null", and a bare number each end the
loop after exactly one model call with the decoded value. -/
theorem C8_theorem :
    (∀ (r : Nat → String) (retries : Nat) (v : JValue), 0 < retries →
      json_loads (r 0) = some v →
      generate_json_from_gemini r retries = v ∧
      gemini_call_count r retries = 1) ∧
    (generate_json_from_gemini (constResp "[]") 3 = JValue.arr [] ∧
      gemini_call_count (constResp "[]") 3 = 1) ∧
    (generate_json_from_gemini (constResp "\x7b\x7d") 3 = JValue.obj [] ∧
      gemini_call_count (constResp "\x7b\x7d") 3 = 1) ∧
    (generate_json_from_gemini (constResp "null") 3 = JValue.null ∧
      gemini_call_count (constResp "null") 3 = 1) ∧
    (generate_json_from_gemini (constResp "7") 3 = JValue.num "7" ∧
      gemini_call_count (constResp "7") 3 = 1) := by
  refine ⟨?_, ⟨rfl, rfl⟩, ⟨rfl, rfl⟩, ⟨rfl, rfl⟩, ⟨rfl, rfl⟩⟩
  intro r retries v hpos hl
  cases retries with
  | zero => omega
  | succ m =>
    have ha : attempt_parse (r 0) = some v := attempt_parse_of_loads _ _ hl
    constructor
    · simp [generate_json_from_gemini, geminiRun, geminiAux, ha]
    · simp [gemini_call_count, geminiRun, geminiAux, ha]

/-- C8 witness: a first response of "null" is returned after one call even
with two attempts remaining. -/
theorem C8_witness :
    generate_json_from_gemini (constResp "null") 2 = JValue.null ∧
    gemini_call_count (constResp "null") 2 = 1 :=
  C8_theorem.1 (constResp "null") 2 JValue.null (by decide) rfl

/-! ## C5: the response parser -/

/-- Wherever the claim's described span ("from the first `[` or `{` to the
last matching `]` or `}`") exists, the source's regex search finds exactly
that span. -/
theorem claimedBlockAux_imp_extractAux :
    ∀ (cs : List Char) (s : List Char),
      claimedBlockAux cs = some s → extractAux cs = some s := by
  intro cs
  induction cs with
  | nil => intro s h; exact h
  | cons x rest ih =>
    intro s h
    by_cases hx : x = '['
    · subst hx
      cases hb : upToLast ']' rest with
      | none => rw [claimedBlockAux, if_pos rfl, hb] at h; exact Option.noConfusion h
      | some body =>
        rw [claimedBlockAux, if_pos rfl, hb] at h
        rw [extractAux, if_pos rfl, hb]
        simpa using h
    · by_cases hx2 : x = '\x7b'
      · subst hx2
        cases hb : upToLast '\x7d' rest with
        | none =>
          rw [claimedBlockAux, if_neg (by decide), if_pos rfl, hb] at h
          exact Option.noConfusion h
        | some body =>
          rw [claimedBlockAux, if_neg (by decide), if_pos rfl, hb] at h
          rw [extractAux, if_neg (by decide), if_pos rfl, hb]
          simpa using h
      · rw [claimedBlockAux, if_neg hx, if_neg hx2] at h
        rw [extractAux, if_neg hx, if_neg hx2]
        exact ih s h

/-- C5 counterexample: the claim describes the fallback as the span "from
the first `[` or `{` to the last matching `]` or `}`" and says the attempt
fails when both decodes fail; but when the text's first opening bracket is
a brace that is never closed, no such span exists, while the source's regex
skips the unclosed brace, matches a later complete array, and the attempt
succeeds. -/
theorem C5_counterexample :
    json_loads c5Cex = none ∧
    claimed_block c5Cex = none ∧
    _extract_json_block c5Cex = some "[\"1\"]" ∧
    attempt_parse c5Cex = some (JValue.arr [JValue.str "1"]) :=
  ⟨rfl, rfl, rfl, rfl⟩

/-- C5 (amended): an attempt first decodes the entire response text and
returns that value when it succeeds; only on failure does it decode the
regex match of `(\[.*\]|\{.*\})` — the leftmost opening bracket that has a
later closer of its own kind, extended greedily to the last such closer; in
every text where the first `[` or `{` does have a matching later closer
this is exactly the claim's span from the first opening bracket to the last
matching closer; if both decodes fail the attempt reports failure as an
empty result rather than raising.  The claim's worked example parses on the
first attempt via the bracket fallback. -/
theorem C5_theorem (text : String) (v : JValue) (s : String) :
    (json_loads text = some v → attempt_parse text = some v) ∧
    (json_loads text = none →
      attempt_parse text = (_extract_json_block text).bind json_loads) ∧
    (claimed_block text = some s → _extract_json_block text = some s) ∧
    (json_loads c5Text = none ∧
      _extract_json_block c5Text = some c5Block ∧
      attempt_parse c5Text = some c5Val ∧
      generate_json_from_gemini (constResp c5Text) 3 = c5Val ∧
      gemini_call_count (constResp c5Text) 3 = 1) := by
  refine ⟨attempt_parse_of_loads text v, ?_, ?_, rfl, rfl, rfl, rfl, rfl⟩
  · intro h
    cases hb : _extract_json_block text with
    | none => simp [attempt_parse, h, hb]
    | some block => simp [attempt_parse, h, hb]
  · intro h
    rw [claimed_block] at h
    cases hc : claimedBlockAux text.data with
    | none => rw [hc] at h; exact Option.noConfusion h
    | some cs =>
      rw [hc] at h
      have hs : String.mk cs = s := by simpa using h
      rw [_extract_json_block, claimedBlockAux_imp_extractAux text.data cs hc]
      simpa using hs

/-- C5 witness: direct decoding wins when the whole text is structured
data, and the worked example's span agrees between the claim's description
and the source's regex. -/
theorem C5_witness :
    attempt_parse "[]" = some (JValue.arr []) ∧
    _extract_json_block c5Text = some c5Block :=
  ⟨( C5_theorem "[]" (JValue.arr []) "").1 rfl,
   (C5_theorem c5Text JValue.null c5Block).2.2.1 rfl⟩

/-! ## C2 and C10: the batch coordinator -/

/-- Characterisation of `process_uploaded_pdfs`: files are processed in
order and independently; each contributes its rows to the record list when
processing succeeds with at least one row, and otherwise exactly one
(name, message) pair to the error list. -/
theorem process_uploaded_pdfs_spec (llm : String → Nat → String) :
    ∀ files : List UploadedFile,
      process_uploaded_pdfs llm files =
        ((files.map (fileRows llm)).flatten, files.filterMap (fileErr llm)) := by
  intro files
  induction files with
  | nil => rfl
  | cons f rest ih =>
    cases hc : f.content with
    | error e =>
      simp [process_uploaded_pdfs, fileRows, fileErr, hc, ih]
    | ok text =>
      cases hr : process_single_pdf llm text with
      | nil =>
        simp [process_uploaded_pdfs, fileRows, fileErr, hc, hr, ih]
      | cons r rs =>
        simp [process_uploaded_pdfs, fileRows, fileErr, hc, hr, ih]

/-- C2 counterexample: a document that yields no records is recorded with
the message "No material items extracted (empty response).", not with the
claim's literal message "no records extracted". -/
theorem C2_counterexample :
    (process_uploaded_pdfs noiseLLM [emptyFile]).2 =
      [("empty.pdf", "No material items extracted (empty response).")] ∧
    "No material items extracted (empty response)." ≠ "no records extracted" :=
  ⟨rfl, by decide⟩

/-- C2 (amended): the Batch Coordinator processes documents in order; a
document whose processing raises contributes exactly its (name, message)
pair; a document yielding an empty Record sequence contributes the pair
(name, "No material items extracted (empty response)."); any other document
appends all of its Records — and in the three-document scenario where
document 2 raises during text extraction, the result holds the Records of
documents 1 and 3 and exactly one error entry naming document 2. -/
theorem C2_theorem :
    (∀ (llm : String → Nat → String) (files : List UploadedFile),
      process_uploaded_pdfs llm files =
        ((files.map (fileRows llm)).flatten, files.filterMap (fileErr llm))) ∧
    process_uploaded_pdfs demoLLM [demoFile1, demoFile2, demoFile3] =
      ([demoRec, demoRec], [("doc2.pdf", "PDF read failure")]) :=
  ⟨fun llm files => process_uploaded_pdfs_spec llm files, rfl⟩

/-- C10 (confirmed): every per-document failure is converted into exactly
the (file name, message) pair in the returned error list — the function
always returns its record/error pair and a failing document is represented
there rather than propagated. -/
theorem C10_theorem (llm : String → Nat → String) (files : List UploadedFile)
    (f : UploadedFile) (e : String) :
    (process_uploaded_pdfs llm files).2 = files.filterMap (fileErr llm) ∧
    (f ∈ files → f.content = Except.error e →
      (f.name, e) ∈ (process_uploaded_pdfs llm files).2) := by
  constructor
  · rw [process_uploaded_pdfs_spec]
  · intro hf he
    rw [process_uploaded_pdfs_spec]
    exact List.mem_filterMap.mpr ⟨f, hf, by simp [fileErr, he]⟩

/-- C10 witness: the failing demo document's exception text appears as its
error pair in a batch containing it. -/
theorem C10_witness :
    ("doc2.pdf", "PDF read failure") ∈
      (process_uploaded_pdfs noiseLLM [demoFile2]).2 :=
  (C10_theorem noiseLLM [demoFile2] demoFile2 "PDF read failure").2
    (List.mem_singleton.mpr rfl) rfl

/-! ## C7: the prompt builder -/

/-- Soundness of the executable prefix test. -/
theorem isPrefixB_sound : ∀ (a b : List Char), isPrefixB a b = true →
    ∃ t, a ++ t = b := by
  intro a
  induction a with
  | nil => intro b _; exact ⟨b, rfl⟩
  | cons x xs ih =>
    intro b h
    cases b with
    | nil => exact absurd h (by simp [isPrefixB])
    | cons y ys =>
      rw [isPrefixB, Bool.and_eq_true] at h
      obtain ⟨t, ht⟩ := ih ys h.2
      have hxy : x = y := by simpa using h.1
      exact ⟨t, by rw [List.cons_append, ht, hxy]⟩

/-- Soundness of the executable span test. -/
theorem subSpanB_sound : ∀ (b a : List Char), subSpanB a b = true → SubSpan a b := by
  intro b
  induction b with
  | nil =>
    intro a h
    obtain ⟨t, ht⟩ := isPrefixB_sound a [] h
    exact ⟨[], t, by simpa using ht⟩
  | cons y ys ih =>
    intro a h
    rw [subSpanB, Bool.or_eq_true] at h
    rcases h with h | h
    · obtain ⟨t, ht⟩ := isPrefixB_sound a (y :: ys) h
      exact ⟨[], t, by simpa using ht⟩
    · obtain ⟨s, t, hst⟩ := ih a h
      exact ⟨y :: s, t, by rw [List.cons_append, List.cons_append, hst]⟩

/-- A span of `b` is a span of `b ++ c`. -/
theorem subSpan_appendRight (a b c : List Char) (h : SubSpan a b) :
    SubSpan a (b ++ c) := by
  obtain ⟨s, t, hst⟩ := h
  exact ⟨s, t ++ c, by rw [← hst]; simp⟩

set_option maxRecDepth 100000 in
set_option maxHeartbeats 1000000 in
/-- Every column name occurs verbatim inside the fixed prompt prefix. -/
theorem columns_in_promptPre :
    COLUMNS.all (fun c => subSpanB c.data promptPre.data) = true := by decide

/-- C7 (confirmed): for every document text the prompt builder produces its
string with no failure mode, that string contains every schema field name
of `COLUMNS` as a verbatim substring, and it embeds the raw document text
verbatim. -/
theorem C7_theorem (text : String) :
    (∀ col, col ∈ COLUMNS → SubSpan col.data (extraction_prompt text).data) ∧
    SubSpan text.data (extraction_prompt text).data := by
  have hdata : (extraction_prompt text).data =
      promptPre.data ++ (text.data ++ promptPost.data) := by
    simp [extraction_prompt]
  constructor
  · intro col hcol
    have hb : subSpanB col.data promptPre.data = true := by
      have := List.all_eq_true.mp columns_in_promptPre col hcol
      simpa using this
    have h1 : SubSpan col.data promptPre.data := subSpanB_sound _ _ hb
    have h2 := subSpan_appendRight col.data promptPre.data
      (text.data ++ promptPost.data) h1
    rw [hdata]
    exact h2
  · exact ⟨promptPre.data, promptPost.data, by rw [hdata]; simp⟩

/-- C7 witness: "SB NO." occurs in the prompt built from the document text
"doc", and "doc" itself is embedded. -/
theorem C7_witness :
    SubSpan ("SB NO.".data) ((extraction_prompt "doc").data) ∧
    SubSpan ("doc".data) ((extraction_prompt "doc").data) :=
  ⟨( C7_theorem "doc").1 "SB NO." (by decide), ( C7_theorem "doc").2⟩
